import Mathlib

/-!
Shallow embedding of the Clock (Second-Chance) page-replacement simulator.

The state machine `ClockAlgorithm` is translated from the JavaScript class
`ClockAlgorithm` (constructor and `step()`): frames hold `Option String`
occupants (`none` is the JS `null` empty marker), use bits are natural
numbers, and the micro-state is an enumerated tag.  The driver functions
`doStep` / `doBackStep` model the history-stack integration from `main.js`
(`JSON` deep copies become plain values; the driver is modelled in manual
stepping mode, i.e. with the auto-play flag off).
-/

set_option maxHeartbeats 1000000
set_option maxRecDepth 100000

/-- The enumerated micro-state tag of the state machine
(the JS `currentState` string field). -/
inductive MicroState where
  | START
  | CHECK_HIT
  | HIT
  | FAULT_START_SEARCH
  | FAULT_CHECK_BIT
  | FAULT_SET_BIT_ZERO
  | FAULT_REPLACE
  | DONE
deriving DecidableEq, Repr

/-- The full mutable field set of the JS `ClockAlgorithm` object. -/
structure ClockAlgorithm where
  numFrames : Nat
  refString : List String
  frames : List (Option String)
  useBits : List Nat
  pointer : Nat
  refIndex : Nat
  currentPage : Option String
  pageFaults : Nat
  pageHits : Nat
  currentState : MicroState
  logMessage : String
  logType : String
  highlightFrame : Option Nat
  highlightColor : Option String
deriving DecidableEq, Repr

/-- Rendering of an `Option String` page inside a log message
(JS template literals print `null` for the empty marker). -/
def optStr : Option String → String
  | none => "null"
  | some p => p

/-- JS `Array.prototype.indexOf`: index of the first occurrence, `none`
when absent (`-1` in JS).  Used by `ClockAlgorithm._findPage`. -/
def listIndexOf (page : Option String) : List (Option String) → Option Nat
  | [] => none
  | x :: xs => if x = page then some 0 else (listIndexOf page xs).map (· + 1)

/-- The constructor `new ClockAlgorithm(numFrames, refStringArray)`. -/
def ClockAlgorithm.init (numFrames : Nat) (refStringArray : List String) : ClockAlgorithm :=
  { numFrames := numFrames
    refString := refStringArray
    frames := List.replicate numFrames none
    useBits := List.replicate numFrames 0
    pointer := 0
    refIndex := 0
    currentPage := none
    pageFaults := 0
    pageHits := 0
    currentState := .START
    logMessage := "Simulation initialized. Click Start/Reset."
    logType := "info"
    highlightFrame := none
    highlightColor := none }

/-- One call of `ClockAlgorithm.step()`, translated branch by branch from
the JS `switch` (the early return on `DONE`, then one case per state;
the JS `switch` has no `DONE` case, so that arm leaves the state alone). -/
def ClockAlgorithm.step (s : ClockAlgorithm) : ClockAlgorithm :=
  if s.currentState = .DONE then
    { s with logMessage := "Simulation complete.", logType := "info" }
  else
    match s.currentState with
    | .START =>
        if s.refString.length ≤ s.refIndex then
          { s with currentState := .DONE
                   currentPage := none
                   logMessage := "Reference string finished."
                   logType := "info"
                   highlightFrame := none }
        else
          let page := s.refString[s.refIndex]?
          { s with currentPage := page
                   logMessage := "Accessing page " ++ optStr page ++ "..."
                   logType := "info"
                   currentState := .CHECK_HIT }
    | .CHECK_HIT =>
        match listIndexOf s.currentPage s.frames with
        | some foundIndex =>
            { s with pageHits := s.pageHits + 1
                     useBits := s.useBits.set foundIndex 1
                     currentState := .HIT
                     highlightFrame := some foundIndex
                     highlightColor := some "green"
                     logMessage := "Page " ++ optStr s.currentPage ++
                       " is a HIT. Setting use bit to 1."
                     logType := "hit" }
        | none =>
            { s with pageFaults := s.pageFaults + 1
                     currentState := .FAULT_START_SEARCH
                     highlightFrame := none
                     logMessage := "Page " ++ optStr s.currentPage ++
                       " is a FAULT. Searching for victim..."
                     logType := "fault" }
    | .HIT =>
        { s with refIndex := s.refIndex + 1
                 currentState := .START }
    | .FAULT_START_SEARCH =>
        { s with logMessage := "Clock hand at frame " ++ toString s.pointer ++
                   " (Page " ++ optStr ((s.frames[s.pointer]?).getD none) ++ ")."
                 logType := "check"
                 currentState := .FAULT_CHECK_BIT
                 highlightFrame := some s.pointer
                 highlightColor := some "orange" }
    | .FAULT_CHECK_BIT =>
        let bit := (s.useBits[s.pointer]?).getD 0
        { s with logMessage := "Checking frame " ++ toString s.pointer ++
                   ". Use bit is " ++ toString bit ++ "."
                 logType := "check"
                 currentState := if bit = 1 then .FAULT_SET_BIT_ZERO else .FAULT_REPLACE
                 highlightFrame := some s.pointer }
    | .FAULT_SET_BIT_ZERO =>
        { s with useBits := s.useBits.set s.pointer 0
                 logMessage := "Set bit to 0 for frame " ++ toString s.pointer ++
                   ". Advancing pointer."
                 logType := "check"
                 highlightColor := some "orange"
                 pointer := (s.pointer + 1) % s.numFrames
                 currentState := .FAULT_CHECK_BIT }
    | .FAULT_REPLACE =>
        let victimPage := (s.frames[s.pointer]?).getD none
        { s with frames := s.frames.set s.pointer s.currentPage
                 useBits := s.useBits.set s.pointer 1
                 logMessage := "Replacing Page " ++ optStr victimPage ++
                   " at frame " ++ toString s.pointer ++ " with Page " ++
                   optStr s.currentPage ++ ". Setting bit to 1."
                 logType := "fault"
                 highlightFrame := some s.pointer
                 highlightColor := some "red"
                 pointer := (s.pointer + 1) % s.numFrames
                 refIndex := s.refIndex + 1
                 currentState := .START }
    | .DONE => s

/-- `n` repeated `step()` calls. -/
def stepN : Nat → ClockAlgorithm → ClockAlgorithm
  | 0, s => s
  | n + 1, s => stepN n s.step

/-- States reachable from a fresh construction by repeated `step()` calls. -/
def Reachable (numFrames : Nat) (refs : List String) (s : ClockAlgorithm) : Prop :=
  ∃ n, stepN n (ClockAlgorithm.init numFrames refs) = s

/-- A driver configuration: the live machine plus the history stack of
`main.js` (most recent snapshot first). -/
abbrev DriverConfig := ClockAlgorithm × List ClockAlgorithm

/-- `doStep` from `main.js`: early return when the machine is `DONE`
(no snapshot is pushed); otherwise push a deep copy of the machine and
call `step()`. -/
def doStep (c : DriverConfig) : DriverConfig :=
  if c.1.currentState = .DONE then c
  else (c.1.step, c.1 :: c.2)

/-- `doBackStep` from `main.js` in manual mode: no-op when the history is
empty; otherwise pop the latest snapshot and overwrite every field of the
live machine with it (`Object.assign`). -/
def doBackStep (c : DriverConfig) : DriverConfig :=
  match c.2 with
  | [] => c
  | prev :: rest => (prev, rest)

/-- `n` forward driver steps. -/
def doStepN : Nat → DriverConfig → DriverConfig
  | 0, c => c
  | n + 1, c => doStepN n (doStep c)

/-- `n` backward driver steps. -/
def doBackStepN : Nat → DriverConfig → DriverConfig
  | 0, c => c
  | n + 1, c => doBackStepN n (doBackStep c)

/-- Driver configurations reachable from a fresh run (empty history) by any
interleaving of forward and backward steps. -/
inductive DriverReach (numFrames : Nat) (refs : List String) : DriverConfig → Prop where
  | init : DriverReach numFrames refs (ClockAlgorithm.init numFrames refs, [])
  | fwd {c} : DriverReach numFrames refs c → DriverReach numFrames refs (doStep c)
  | back {c} : DriverReach numFrames refs c → DriverReach numFrames refs (doBackStep c)

/-- Number of set use bits — the variant of the fault-scan loop. -/
def countOnes (s : ClockAlgorithm) : Nat := s.useBits.count 1

/-- Base component of the termination measure: references still to process,
weighted by the worst-case micro-step count of a single reference. -/
def rankBase (s : ClockAlgorithm) : Nat :=
  (s.refString.length - s.refIndex) * (2 * s.numFrames + 6)

/-- Termination measure: strictly decreases on every `step()` from a
non-`DONE` state of an invariant-respecting machine. -/
def measureFn (s : ClockAlgorithm) : Nat :=
  match s.currentState with
  | .DONE => 0
  | .START => rankBase s + 2 * s.numFrames + 5
  | .CHECK_HIT => rankBase s + 2 * s.numFrames + 4
  | .HIT => rankBase s + 1
  | .FAULT_START_SEARCH => rankBase s + 2 * countOnes s + 3
  | .FAULT_CHECK_BIT => rankBase s + 2 * countOnes s + 2
  | .FAULT_SET_BIT_ZERO => rankBase s + 2 * countOnes s + 1
  | .FAULT_REPLACE => rankBase s

/-- The inductive invariant of reachable machine states. -/
structure ClockInv (s : ClockAlgorithm) : Prop where
  nf_pos : 1 ≤ s.numFrames
  frames_len : s.frames.length = s.numFrames
  bits_len : s.useBits.length = s.numFrames
  ptr_lt : s.pointer < s.numFrames
  nodup : ∀ i j : Nat, ∀ p : String, i ≠ j → s.frames[i]? = some (some p) →
    s.frames[j]? ≠ some (some p)
  empty_bit : ∀ i : Nat, s.frames[i]? = some none → s.useBits[i]? = some 0
  page_some : s.currentState ≠ .START → s.currentState ≠ .DONE →
    ∃ p : String, s.currentPage = some p
  ref_lt : s.currentState ≠ .START → s.currentState ≠ .DONE →
    s.refIndex < s.refString.length
  absent : (s.currentState = .FAULT_START_SEARCH ∨ s.currentState = .FAULT_CHECK_BIT ∨
      s.currentState = .FAULT_SET_BIT_ZERO ∨ s.currentState = .FAULT_REPLACE) →
    s.currentPage ∉ s.frames
  sbz_bit : s.currentState = .FAULT_SET_BIT_ZERO → s.useBits[s.pointer]? = some 1

/-- Concrete run of spec scenario A: `numFrames = 3`, reference string
1 2 3 4 1 2 5. -/
def initA : ClockAlgorithm := ClockAlgorithm.init 3 ["1", "2", "3", "4", "1", "2", "5"]

/-- Concrete run of spec scenario C: `numFrames = 2`, reference string 1 2 1 2. -/
def initC : ClockAlgorithm := ClockAlgorithm.init 2 ["1", "2", "1", "2"]

/-- A reachable state in micro-state `CHECK_HIT` whose current page is resident
(the second reference of `5 5 5` on one frame). -/
def wCheckHit : ClockAlgorithm := stepN 6 (ClockAlgorithm.init 1 ["5", "5", "5"])

/-- A reachable state in micro-state `HIT` (one step past `wCheckHit`). -/
def wHitState : ClockAlgorithm := stepN 7 (ClockAlgorithm.init 1 ["5", "5", "5"])

/-- A reachable state in micro-state `FAULT_CHECK_BIT` whose pointer rests on an
empty frame slot. -/
def wScanState : ClockAlgorithm := stepN 3 (ClockAlgorithm.init 2 ["1"])

/-- A reachable state in micro-state `DONE` (scenario C run to completion). -/
def wDoneState : ClockAlgorithm := stepN 17 initC

/-- A reachable driver configuration whose machine is `DONE` while the history
stack is non-empty. -/
def cDrvDone : DriverConfig := doStepN 6 (ClockAlgorithm.init 1 ["1"], [])

/-! ### Step equations: one lemma per branch of `step()` -/

theorem step_eq_DONE {s : ClockAlgorithm} (h : s.currentState = .DONE) :
    s.step = { s with logMessage := "Simulation complete.", logType := "info" } := by
  simp [ClockAlgorithm.step, h]

theorem step_eq_START_fin {s : ClockAlgorithm} (h : s.currentState = .START)
    (h2 : s.refString.length ≤ s.refIndex) :
    s.step = { s with currentState := .DONE
                      currentPage := none
                      logMessage := "Reference string finished."
                      logType := "info"
                      highlightFrame := none } := by
  simp [ClockAlgorithm.step, h, h2]

theorem step_eq_START_go {s : ClockAlgorithm} (h : s.currentState = .START)
    (h2 : s.refIndex < s.refString.length) :
    s.step = { s with currentPage := s.refString[s.refIndex]?
                      logMessage := "Accessing page " ++ optStr (s.refString[s.refIndex]?) ++ "..."
                      logType := "info"
                      currentState := .CHECK_HIT } := by
  simp [ClockAlgorithm.step, h, Nat.not_le.mpr h2]

theorem step_eq_CHECK_HIT_found {s : ClockAlgorithm} {i : Nat}
    (h : s.currentState = .CHECK_HIT) (h2 : listIndexOf s.currentPage s.frames = some i) :
    s.step = { s with pageHits := s.pageHits + 1
                      useBits := s.useBits.set i 1
                      currentState := .HIT
                      highlightFrame := some i
                      highlightColor := some "green"
                      logMessage := "Page " ++ optStr s.currentPage ++
                        " is a HIT. Setting use bit to 1."
                      logType := "hit" } := by
  simp [ClockAlgorithm.step, h, h2]

theorem step_eq_CHECK_HIT_miss {s : ClockAlgorithm}
    (h : s.currentState = .CHECK_HIT) (h2 : listIndexOf s.currentPage s.frames = none) :
    s.step = { s with pageFaults := s.pageFaults + 1
                      currentState := .FAULT_START_SEARCH
                      highlightFrame := none
                      logMessage := "Page " ++ optStr s.currentPage ++
                        " is a FAULT. Searching for victim..."
                      logType := "fault" } := by
  simp [ClockAlgorithm.step, h, h2]

theorem step_eq_HIT {s : ClockAlgorithm} (h : s.currentState = .HIT) :
    s.step = { s with refIndex := s.refIndex + 1, currentState := .START } := by
  simp [ClockAlgorithm.step, h]

theorem step_eq_FSS {s : ClockAlgorithm} (h : s.currentState = .FAULT_START_SEARCH) :
    s.step = { s with logMessage := "Clock hand at frame " ++ toString s.pointer ++
                        " (Page " ++ optStr ((s.frames[s.pointer]?).getD none) ++ ")."
                      logType := "check"
                      currentState := .FAULT_CHECK_BIT
                      highlightFrame := some s.pointer
                      highlightColor := some "orange" } := by
  simp [ClockAlgorithm.step, h]

theorem step_eq_FCB {s : ClockAlgorithm} (h : s.currentState = .FAULT_CHECK_BIT) :
    s.step = { s with logMessage := "Checking frame " ++ toString s.pointer ++
                        ". Use bit is " ++ toString ((s.useBits[s.pointer]?).getD 0) ++ "."
                      logType := "check"
                      currentState := if (s.useBits[s.pointer]?).getD 0 = 1 then
                          .FAULT_SET_BIT_ZERO else .FAULT_REPLACE
                      highlightFrame := some s.pointer } := by
  simp [ClockAlgorithm.step, h]

theorem step_eq_SBZ {s : ClockAlgorithm} (h : s.currentState = .FAULT_SET_BIT_ZERO) :
    s.step = { s with useBits := s.useBits.set s.pointer 0
                      logMessage := "Set bit to 0 for frame " ++ toString s.pointer ++
                        ". Advancing pointer."
                      logType := "check"
                      highlightColor := some "orange"
                      pointer := (s.pointer + 1) % s.numFrames
                      currentState := .FAULT_CHECK_BIT } := by
  simp [ClockAlgorithm.step, h]

theorem step_eq_REPLACE {s : ClockAlgorithm} (h : s.currentState = .FAULT_REPLACE) :
    s.step = { s with frames := s.frames.set s.pointer s.currentPage
                      useBits := s.useBits.set s.pointer 1
                      logMessage := "Replacing Page " ++ optStr ((s.frames[s.pointer]?).getD none) ++
                        " at frame " ++ toString s.pointer ++ " with Page " ++
                        optStr s.currentPage ++ ". Setting bit to 1."
                      logType := "fault"
                      highlightFrame := some s.pointer
                      highlightColor := some "red"
                      pointer := (s.pointer + 1) % s.numFrames
                      refIndex := s.refIndex + 1
                      currentState := .START } := by
  simp [ClockAlgorithm.step, h]

/-! ### Small facts about `step`, `stepN` and the list helpers -/

theorem step_numFrames (s : ClockAlgorithm) : s.step.numFrames = s.numFrames := by
  unfold ClockAlgorithm.step
  repeat' split
  all_goals rfl

theorem step_refString (s : ClockAlgorithm) : s.step.refString = s.refString := by
  unfold ClockAlgorithm.step
  repeat' split
  all_goals rfl

theorem step_pointer_or (s : ClockAlgorithm) :
    s.step.pointer = s.pointer ∨ s.step.pointer = (s.pointer + 1) % s.numFrames := by
  unfold ClockAlgorithm.step
  repeat' split
  all_goals simp

theorem stepN_succ_back (n : Nat) (s : ClockAlgorithm) :
    stepN (n + 1) s = (stepN n s).step := by
  induction n generalizing s with
  | zero => rfl
  | succ m ih => exact ih s.step

theorem step_done_absorb {s : ClockAlgorithm} (h : s.currentState = .DONE) :
    s.step.currentState = .DONE ∧ s.step.pageFaults = s.pageFaults ∧
    s.step.pageHits = s.pageHits := by
  rw [step_eq_DONE h]
  exact ⟨h, rfl, rfl⟩

theorem listIndexOf_none_iff (page : Option String) (l : List (Option String)) :
    listIndexOf page l = none ↔ page ∉ l := by
  induction l with
  | nil => simp [listIndexOf]
  | cons x xs ih =>
      by_cases hx : x = page
      · simp [listIndexOf, hx]
      · simp [listIndexOf, hx, ih, Ne.symm hx]

theorem listIndexOf_getElem {page : Option String} :
    ∀ {l : List (Option String)} {i : Nat},
      listIndexOf page l = some i → l[i]? = some page := by
  intro l
  induction l with
  | nil => intro i h; simp [listIndexOf] at h
  | cons x xs ih =>
      intro i h
      by_cases hx : x = page
      · simp [listIndexOf, hx] at h
        subst h
        simp [hx]
      · simp [listIndexOf, hx] at h
        obtain ⟨j, hj, hji⟩ := h
        subst hji
        simpa using ih hj

theorem listIndexOf_eq_of_min {page : Option String} :
    ∀ (l : List (Option String)) (i : Nat),
      l[i]? = some page → (∀ j : Nat, j < i → l[j]? ≠ some page) →
      listIndexOf page l = some i := by
  intro l
  induction l with
  | nil => intro i h; simp at h
  | cons x xs ih =>
      intro i h hmin
      cases i with
      | zero =>
          simp at h
          simp [listIndexOf, h]
      | succ m =>
          have hx : x ≠ page := by
            intro he
            exact hmin 0 (Nat.succ_pos m) (by simpa using he)
          have hxs : xs[m]? = some page := by simpa using h
          have hmin' : ∀ j : Nat, j < m → xs[j]? ≠ some page := by
            intro j hj hc
            exact hmin (j + 1) (Nat.succ_lt_succ hj) (by simpa using hc)
          simp [listIndexOf, hx, ih m hxs hmin']

theorem count_one_set_zero :
    ∀ (l : List Nat) (i : Nat), l[i]? = some 1 →
      (l.set i 0).count 1 + 1 = l.count 1 := by
  intro l
  induction l with
  | nil => intro i h; simp at h
  | cons x xs ih =>
      intro i h
      cases i with
      | zero =>
          simp at h
          subst h
          simp [List.count_cons]
      | succ m =>
          have hm : xs[m]? = some 1 := by simpa using h
          have := ih m hm
          simp [List.count_cons]
          omega

/-! ### The invariant holds for every reachable state -/

theorem clockInv_init {N : Nat} (refs : List String) (hN : 1 ≤ N) :
    ClockInv (ClockAlgorithm.init N refs) := by
  refine ⟨hN, by simp [ClockAlgorithm.init], by simp [ClockAlgorithm.init], hN,
    ?_, ?_, ?_, ?_, ?_, ?_⟩
  · intro i j p hij hi
    simp [ClockAlgorithm.init, List.getElem?_replicate] at hi
  · intro i hi
    simp [ClockAlgorithm.init, List.getElem?_replicate] at hi ⊢
    exact hi
  · simp [ClockAlgorithm.init]
  · simp [ClockAlgorithm.init]
  · simp [ClockAlgorithm.init]
  · simp [ClockAlgorithm.init]

theorem clockInv_step {s : ClockAlgorithm} (h : ClockInv s) : ClockInv s.step := by
  obtain ⟨nf, fl, bl, pl, nd, eb, ps, rl, ab, sb⟩ := h
  cases hcs : s.currentState with
  | DONE =>
      rw [step_eq_DONE hcs]
      refine ⟨nf, fl, bl, pl, nd, eb, ?_, ?_, ?_, ?_⟩ <;> simp [hcs]
  | START =>
      by_cases h2 : s.refString.length ≤ s.refIndex
      · rw [step_eq_START_fin hcs h2]
        refine ⟨nf, fl, bl, pl, nd, eb, ?_, ?_, ?_, ?_⟩ <;> simp
      · rw [step_eq_START_go hcs (Nat.not_le.mp h2)]
        have hlt : s.refIndex < s.refString.length := Nat.not_le.mp h2
        refine ⟨nf, fl, bl, pl, nd, eb, ?_, ?_, ?_, ?_⟩
        · intro _ _
          exact ⟨s.refString[s.refIndex], List.getElem?_eq_getElem hlt⟩
        · intro _ _
          exact hlt
        · simp
        · simp
  | CHECK_HIT =>
      cases hfind : listIndexOf s.currentPage s.frames with
      | some i =>
          rw [step_eq_CHECK_HIT_found hcs hfind]
          have hi : s.frames[i]? = some s.currentPage := listIndexOf_getElem hfind
          refine ⟨nf, fl, by simpa using bl, pl, nd, ?_, ?_, ?_, ?_, ?_⟩
          · intro k hk
            by_cases hki : k = i
            · subst hki
              obtain ⟨p, hp⟩ := ps (by simp [hcs]) (by simp [hcs])
              rw [hp] at hi
              rw [hk] at hi
              simp at hi
            · rw [List.getElem?_set_ne (Ne.symm hki)]
              exact eb k hk
          · intro _ _
            exact ps (by simp [hcs]) (by simp [hcs])
          · intro _ _
            exact rl (by simp [hcs]) (by simp [hcs])
          · simp
          · simp
      | none =>
          rw [step_eq_CHECK_HIT_miss hcs hfind]
          refine ⟨nf, fl, bl, pl, nd, eb, ?_, ?_, ?_, ?_⟩
          · intro _ _
            exact ps (by simp [hcs]) (by simp [hcs])
          · intro _ _
            exact rl (by simp [hcs]) (by simp [hcs])
          · intro _
            exact (listIndexOf_none_iff _ _).mp hfind
          · simp
  | HIT =>
      rw [step_eq_HIT hcs]
      refine ⟨nf, fl, bl, pl, nd, eb, ?_, ?_, ?_, ?_⟩ <;> simp
  | FAULT_START_SEARCH =>
      rw [step_eq_FSS hcs]
      refine ⟨nf, fl, bl, pl, nd, eb, ?_, ?_, ?_, ?_⟩
      · intro _ _
        exact ps (by simp [hcs]) (by simp [hcs])
      · intro _ _
        exact rl (by simp [hcs]) (by simp [hcs])
      · intro _
        exact ab (Or.inl hcs)
      · simp
  | FAULT_CHECK_BIT =>
      rw [step_eq_FCB hcs]
      have hblt : s.pointer < s.useBits.length := by rw [bl]; exact pl
      by_cases hbit : (s.useBits[s.pointer]?).getD 0 = 1
      · refine ⟨nf, fl, bl, pl, nd, eb, ?_, ?_, ?_, ?_⟩
        · intro _ _
          exact ps (by simp [hcs]) (by simp [hcs])
        · intro _ _
          exact rl (by simp [hcs]) (by simp [hcs])
        · intro _
          exact ab (Or.inr (Or.inl hcs))
        · intro _
          obtain ⟨b, hb⟩ : ∃ b, s.useBits[s.pointer]? = some b :=
            ⟨_, List.getElem?_eq_getElem hblt⟩
          rw [hb] at hbit ⊢
          simp at hbit
          rw [hbit]
      · refine ⟨nf, fl, bl, pl, nd, eb, ?_, ?_, ?_, ?_⟩
        · intro _ _
          exact ps (by simp [hcs]) (by simp [hcs])
        · intro _ _
          exact rl (by simp [hcs]) (by simp [hcs])
        · intro _
          exact ab (Or.inr (Or.inl hcs))
        · simp [hbit]
  | FAULT_SET_BIT_ZERO =>
      rw [step_eq_SBZ hcs]
      have hblt : s.pointer < s.useBits.length := by rw [bl]; exact pl
      refine ⟨nf, fl, by simpa using bl, Nat.mod_lt _ nf, nd, ?_, ?_, ?_, ?_, ?_⟩
      · intro k hk
        by_cases hkp : k = s.pointer
        · subst hkp
          rw [List.getElem?_set_self hblt]
        · rw [List.getElem?_set_ne (Ne.symm hkp)]
          exact eb k hk
      · intro _ _
        exact ps (by simp [hcs]) (by simp [hcs])
      · intro _ _
        exact rl (by simp [hcs]) (by simp [hcs])
      · intro _
        exact ab (Or.inr (Or.inr (Or.inl hcs)))
      · simp
  | FAULT_REPLACE =>
      rw [step_eq_REPLACE hcs]
      obtain ⟨p0, hp0⟩ := ps (by simp [hcs]) (by simp [hcs])
      have habs : s.currentPage ∉ s.frames := ab (Or.inr (Or.inr (Or.inr hcs)))
      have hplt : s.pointer < s.frames.length := by rw [fl]; exact pl
      refine ⟨nf, by simpa using fl, by simpa using bl, Nat.mod_lt _ nf,
        ?_, ?_, ?_, ?_, ?_, ?_⟩
      · intro i j p hij hi hj
        by_cases hip : i = s.pointer <;> by_cases hjp : j = s.pointer
        · exact hij (hip.trans hjp.symm)
        · subst hip
          rw [List.getElem?_set_self hplt] at hi
          have hcur : s.currentPage = some p := Option.some.inj hi
          rw [List.getElem?_set_ne (Ne.symm hjp)] at hj
          refine habs ?_
          rw [hcur]
          exact List.getElem?_mem hj
        · subst hjp
          rw [List.getElem?_set_self hplt] at hj
          have hcur : s.currentPage = some p := Option.some.inj hj
          rw [List.getElem?_set_ne (Ne.symm hip)] at hi
          refine habs ?_
          rw [hcur]
          exact List.getElem?_mem hi
        · rw [List.getElem?_set_ne (Ne.symm hip)] at hi
          rw [List.getElem?_set_ne (Ne.symm hjp)] at hj
          exact nd i j p hij hi hj
      · intro k hk
        by_cases hkp : k = s.pointer
        · subst hkp
          rw [List.getElem?_set_self hplt] at hk
          rw [hp0] at hk
          simp at hk
        · rw [List.getElem?_set_ne (Ne.symm hkp)] at hk
          rw [List.getElem?_set_ne (Ne.symm hkp)]
          exact eb k hk
      · simp
      · simp
      · simp
      · simp

theorem reach_clockInv {N : Nat} {refs : List String} {s : ClockAlgorithm}
    (hN : 1 ≤ N) (hr : Reachable N refs s) : ClockInv s := by
  obtain ⟨n, rfl⟩ := hr
  induction n with
  | zero => exact clockInv_init refs hN
  | succ m ih => rw [stepN_succ_back]; exact clockInv_step ih

/-! ### Termination measure -/

theorem rank_drop {L r C d e : Nat} (h : r < L) (hd : d < C + e) :
    (L - (r + 1)) * C + d < (L - r) * C + e := by
  have hLr : L - r = (L - (r + 1)) + 1 := by omega
  rw [hLr, Nat.add_mul, Nat.one_mul]
  omega

theorem measure_pos {s : ClockAlgorithm} (h : ClockInv s) (hd : s.currentState ≠ .DONE) :
    0 < measureFn s := by
  cases hcs : s.currentState with
  | DONE => exact absurd hcs hd
  | FAULT_REPLACE =>
      have hr : s.refIndex < s.refString.length := h.ref_lt (by simp [hcs]) (by simp [hcs])
      have h1 : 2 * s.numFrames + 6 ≤ (s.refString.length - s.refIndex) * (2 * s.numFrames + 6) :=
        Nat.le_mul_of_pos_left _ (by omega)
      simp [measureFn, hcs, rankBase] <;> omega
  | START => simp [measureFn, hcs] <;> omega
  | CHECK_HIT => simp [measureFn, hcs] <;> omega
  | HIT => simp [measureFn, hcs] <;> omega
  | FAULT_START_SEARCH => simp [measureFn, hcs] <;> omega
  | FAULT_CHECK_BIT => simp [measureFn, hcs] <;> omega
  | FAULT_SET_BIT_ZERO => simp [measureFn, hcs] <;> omega

theorem measure_step_lt {s : ClockAlgorithm} (h : ClockInv s) (hd : s.currentState ≠ .DONE) :
    measureFn s.step < measureFn s := by
  have hcle : s.useBits.count 1 ≤ s.numFrames := by
    have := List.count_le_length 1 s.useBits
    rw [h.bits_len] at this
    exact this
  cases hcs : s.currentState with
  | DONE => exact absurd hcs hd
  | START =>
      by_cases h2 : s.refString.length ≤ s.refIndex
      · rw [step_eq_START_fin hcs h2]
        simp [measureFn, hcs] <;> omega
      · rw [step_eq_START_go hcs (Nat.not_le.mp h2)]
        simp [measureFn, hcs, rankBase] <;> omega
  | CHECK_HIT =>
      cases hfind : listIndexOf s.currentPage s.frames with
      | some i =>
          rw [step_eq_CHECK_HIT_found hcs hfind]
          simp [measureFn, hcs, rankBase] <;> omega
      | none =>
          rw [step_eq_CHECK_HIT_miss hcs hfind]
          simp [measureFn, hcs, rankBase, countOnes] <;> omega
  | HIT =>
      have hr : s.refIndex < s.refString.length := h.ref_lt (by simp [hcs]) (by simp [hcs])
      have hdrop := rank_drop (L := s.refString.length) (r := s.refIndex)
        (C := 2 * s.numFrames + 6) (d := 2 * s.numFrames + 5) (e := 1) hr (by omega)
      rw [step_eq_HIT hcs]
      simp [measureFn, hcs, rankBase] <;> omega
  | FAULT_START_SEARCH =>
      rw [step_eq_FSS hcs]
      simp [measureFn, hcs, rankBase, countOnes] <;> omega
  | FAULT_CHECK_BIT =>
      rw [step_eq_FCB hcs]
      by_cases hbit : (s.useBits[s.pointer]?).getD 0 = 1
      · simp [measureFn, hcs, rankBase, countOnes, hbit] <;> omega
      · simp [measureFn, hcs, rankBase, countOnes, hbit] <;> omega
  | FAULT_SET_BIT_ZERO =>
      have hbit : s.useBits[s.pointer]? = some 1 := h.sbz_bit hcs
      have hcnt := count_one_set_zero s.useBits s.pointer hbit
      rw [step_eq_SBZ hcs]
      simp [measureFn, hcs, rankBase, countOnes] <;> omega
  | FAULT_REPLACE =>
      have hr : s.refIndex < s.refString.length := h.ref_lt (by simp [hcs]) (by simp [hcs])
      have hdrop := rank_drop (L := s.refString.length) (r := s.refIndex)
        (C := 2 * s.numFrames + 6) (d := 2 * s.numFrames + 5) (e := 0) hr (by omega)
      rw [step_eq_REPLACE hcs]
      simp [measureFn, hcs, rankBase] <;> omega

theorem exists_done_of_le :
    ∀ (m : Nat) (s : ClockAlgorithm), ClockInv s → measureFn s ≤ m →
      ∃ n, (stepN n s).currentState = .DONE := by
  intro m
  induction m with
  | zero =>
      intro s hs hm
      by_cases hd : s.currentState = .DONE
      · exact ⟨0, hd⟩
      · have := measure_pos hs hd
        omega
  | succ k ih =>
      intro s hs hm
      by_cases hd : s.currentState = .DONE
      · exact ⟨0, hd⟩
      · have h1 := measure_step_lt hs hd
        obtain ⟨n, hn⟩ := ih s.step (clockInv_step hs) (by omega)
        exact ⟨n + 1, hn⟩

theorem stepN_add (m n : Nat) (s : ClockAlgorithm) :
    stepN (m + n) s = stepN m (stepN n s) := by
  induction n generalizing s with
  | zero => rfl
  | succ k ih => exact ih s.step

/-! ### The fault scan reaches `FAULT_REPLACE` within `countOnes` bit-resets -/

theorem scan_to_replace :
    ∀ (c : Nat) (s : ClockAlgorithm), ClockInv s →
      s.currentState = .FAULT_CHECK_BIT → countOnes s ≤ c →
      ∃ j, j ≤ c ∧ (stepN (2 * j + 1) s).currentState = .FAULT_REPLACE := by
  intro c
  induction c with
  | zero =>
      intro s hs hcs hc
      have hblt : s.pointer < s.useBits.length := by rw [hs.bits_len]; exact hs.ptr_lt
      have hbit : ¬ (s.useBits[s.pointer]?).getD 0 = 1 := by
        intro h1
        obtain ⟨b, hb⟩ : ∃ b, s.useBits[s.pointer]? = some b :=
          ⟨_, List.getElem?_eq_getElem hblt⟩
        rw [hb] at h1
        simp at h1
        have hmem : (1 : Nat) ∈ s.useBits := by
          rw [← h1]
          exact List.getElem?_mem hb
        have hpos : 0 < s.useBits.count 1 := List.count_pos_iff.mpr hmem
        have hce : countOnes s = s.useBits.count 1 := rfl
        omega
      refine ⟨0, Nat.le_refl 0, ?_⟩
      show s.step.currentState = .FAULT_REPLACE
      rw [step_eq_FCB hcs]
      simp [hbit]
  | succ k ih =>
      intro s hs hcs hc
      have hblt : s.pointer < s.useBits.length := by rw [hs.bits_len]; exact hs.ptr_lt
      by_cases hbit : (s.useBits[s.pointer]?).getD 0 = 1
      · have hsome : s.useBits[s.pointer]? = some 1 := by
          obtain ⟨b, hb⟩ : ∃ b, s.useBits[s.pointer]? = some b :=
            ⟨_, List.getElem?_eq_getElem hblt⟩
          rw [hb] at hbit ⊢
          simp at hbit
          rw [hbit]
        have he1 := step_eq_FCB hcs
        rw [if_pos hbit] at he1
        have hst1 : s.step.currentState = .FAULT_SET_BIT_ZERO := by rw [he1]
        have he2 := step_eq_SBZ hst1
        have hst2 : s.step.step.currentState = .FAULT_CHECK_BIT := by rw [he2]
        have hbits2 : s.step.step.useBits = s.useBits.set s.pointer 0 := by
          rw [he2, he1]
        have hcnt : countOnes s.step.step ≤ k := by
          have h1 := count_one_set_zero s.useBits s.pointer hsome
          have h2 : countOnes s.step.step = (s.useBits.set s.pointer 0).count 1 := by
            rw [countOnes, hbits2]
          have hce : countOnes s = s.useBits.count 1 := rfl
          omega
        obtain ⟨j, hj, hrep⟩ := ih s.step.step (clockInv_step (clockInv_step hs)) hst2 hcnt
        refine ⟨j + 1, Nat.succ_le_succ hj, ?_⟩
        have harith : 2 * (j + 1) + 1 = (2 * j + 1) + 2 := by ring
        rw [harith, stepN_add]
        exact hrep
      · refine ⟨0, Nat.zero_le _, ?_⟩
        show s.step.currentState = .FAULT_REPLACE
        rw [step_eq_FCB hcs]
        simp [hbit]

/-! ### Reachability facts -/

theorem stepN_numFrames (n : Nat) (s : ClockAlgorithm) :
    (stepN n s).numFrames = s.numFrames := by
  induction n generalizing s with
  | zero => rfl
  | succ k ih =>
      show (stepN k s.step).numFrames = s.numFrames
      rw [ih s.step, step_numFrames]

theorem reach_numFrames {N : Nat} {refs : List String} {s : ClockAlgorithm}
    (hs : Reachable N refs s) : s.numFrames = N := by
  obtain ⟨n, rfl⟩ := hs
  rw [stepN_numFrames]
  rfl

theorem doBackStepN_succ_back (n : Nat) (c : DriverConfig) :
    doBackStepN (n + 1) c = doBackStep (doBackStepN n c) := by
  induction n generalizing c with
  | zero => rfl
  | succ m ih => exact ih (doBackStep c)

theorem roundtripN :
    ∀ (n : Nat) (c : DriverConfig),
      (∀ k : Nat, k < n → (doStepN k c).1.currentState ≠ .DONE) →
      doBackStepN n (doStepN n c) = c := by
  intro n
  induction n with
  | zero => intro c _; rfl
  | succ m ih =>
      intro c hk
      have h0 : c.1.currentState ≠ .DONE := by
        have := hk 0 (Nat.succ_pos m)
        simpa [doStepN] using this
      have hstep : doStep c = (c.1.step, c.1 :: c.2) := by rw [doStep, if_neg h0]
      have hk2 : ∀ k : Nat, k < m → (doStepN k (doStep c)).1.currentState ≠ .DONE := by
        intro k hkm
        have := hk (k + 1) (Nat.succ_lt_succ hkm)
        simpa [doStepN] using this
      rw [show doStepN (m + 1) c = doStepN m (doStep c) from rfl,
        doBackStepN_succ_back, ih (doStep c) hk2, hstep]
      rfl

/-! ### Claims -/

/-- C1, counterexample: running scenario A (`numFrames = 3`,
refs 1 2 3 4 1 2 5) until `DONE` — first reached at the 48th `step()` call —
gives a fault count different from the claimed 4. -/
theorem c1_scenarioA_counterexample :
    (stepN 47 initA).currentState ≠ .DONE ∧
    (stepN 48 initA).currentState = .DONE ∧
    (stepN 48 initA).pageFaults ≠ 4 := by
  decide

/-- C1 (amended): hand-simulating the transition table on scenario A gives
7 faults (every reference faults) and 0 hits; `DONE` is first reached at the
48th `step()` call and the counters stay frozen afterwards. -/
theorem c1_scenarioA_amended :
    (stepN 47 initA).currentState ≠ .DONE ∧
    ∀ n : Nat, (stepN (48 + n) initA).currentState = .DONE ∧
      (stepN (48 + n) initA).pageFaults = 7 ∧ (stepN (48 + n) initA).pageHits = 0 := by
  refine ⟨by decide, ?_⟩
  intro n
  induction n with
  | zero => decide
  | succ m ih =>
      have habs := step_done_absorb ih.1
      have hstep : stepN (48 + (m + 1)) initA = (stepN (48 + m) initA).step := by
        rw [show 48 + (m + 1) = (48 + m) + 1 from rfl, stepN_succ_back]
      rw [hstep]
      refine ⟨habs.1, ?_, ?_⟩
      · rw [habs.2.1]; exact ih.2.1
      · rw [habs.2.2]; exact ih.2.2

/-- C1 (amended) witness: instance of the universal part at `n = 2`. -/
theorem c1_scenarioA_amended_witness :
    (stepN 50 initA).currentState = .DONE ∧ (stepN 50 initA).pageFaults = 7 ∧
    (stepN 50 initA).pageHits = 0 :=
  c1_scenarioA_amended.2 2

/-- C2, counterexample: in a reachable driver configuration whose machine is
`DONE` (and whose history is non-empty), one forward `doStep` followed by one
`doBackStep` does not restore the configuration, because the `DONE` guard in
`doStep` skips the snapshot push while `doBackStep` still pops. -/
theorem c2_undo_counterexample :
    DriverReach 1 ["1"] cDrvDone ∧ cDrvDone.1.currentState = .DONE ∧
    doBackStep (doStep cDrvDone) ≠ cDrvDone := by
  refine ⟨?_, by decide, by decide⟩
  exact .fwd (.fwd (.fwd (.fwd (.fwd (.fwd .init)))))

/-- C2 (amended): for every driver configuration whose machine is not `DONE`,
one forward step (push snapshot, then `step()`) followed by one undo restores
the machine and the history exactly; hence `n` forward steps followed by `n`
undos restore the original configuration provided each of those forward steps
starts in a non-`DONE` state. -/
theorem c2_undo_roundtrip (c : DriverConfig) (h : c.1.currentState ≠ .DONE) :
    doBackStep (doStep c) = c ∧
    ∀ n : Nat, (∀ k : Nat, k < n → (doStepN k c).1.currentState ≠ .DONE) →
      doBackStepN n (doStepN n c) = c := by
  constructor
  · rw [doStep, if_neg h]
    rfl
  · intro n hk
    exact roundtripN n c hk

/-- C2 (amended) witness: the round trips of length 1 and 2 from a fresh
one-frame run. -/
theorem c2_undo_roundtrip_witness :
    doBackStep (doStep (ClockAlgorithm.init 1 ["1"], [])) = (ClockAlgorithm.init 1 ["1"], []) ∧
    doBackStepN 2 (doStepN 2 (ClockAlgorithm.init 1 ["1"], [])) = (ClockAlgorithm.init 1 ["1"], []) := by
  have h := c2_undo_roundtrip (ClockAlgorithm.init 1 ["1"], []) (by decide)
  exact ⟨h.1, h.2 2 (by decide)⟩

/-- C3: for every valid construction, repeated `step()` calls reach `DONE`
after finitely many calls, and from any reachable `FAULT_START_SEARCH` state
the scan reaches `FAULT_REPLACE` after `2 j + 2` further calls for some
`j ≤ numFrames` bit-zeroing iterations (so at most `numFrames` distinct frames
are visited). -/
theorem c3_termination_and_scan_bound (N : Nat) (refs : List String)
    (s : ClockAlgorithm) (hN : 1 ≤ N) (hr : refs ≠ []) (hs : Reachable N refs s) :
    (∃ n, (stepN n (ClockAlgorithm.init N refs)).currentState = .DONE) ∧
    (s.currentState = .FAULT_START_SEARCH →
      ∃ j, j ≤ N ∧ (stepN (2 * j + 2) s).currentState = .FAULT_REPLACE) := by
  constructor
  · exact exists_done_of_le (measureFn (ClockAlgorithm.init N refs)) _
      (clockInv_init refs hN) (Nat.le_refl _)
  · intro hfss
    have hInv : ClockInv s := reach_clockInv hN hs
    have hstep := step_eq_FSS hfss
    have hst1 : s.step.currentState = .FAULT_CHECK_BIT := by rw [hstep]
    have hcnt : countOnes s.step ≤ N := by
      have h1 : s.step.useBits = s.useBits := by rw [hstep]
      have h2 : countOnes s.step = s.useBits.count 1 := by rw [countOnes, h1]
      have h3 := List.count_le_length 1 s.useBits
      have h4 : s.useBits.length = s.numFrames := hInv.bits_len
      have h5 : s.numFrames = N := reach_numFrames hs
      omega
    obtain ⟨j, hj, hrep⟩ := scan_to_replace N s.step (clockInv_step hInv) hst1 hcnt
    exact ⟨j, hj, hrep⟩

/-- C3 witness: the one-frame run, with the scan entered after two calls. -/
theorem c3_termination_and_scan_bound_witness :
    (∃ n, (stepN n (ClockAlgorithm.init 1 ["1"])).currentState = .DONE) ∧
    (∃ j, j ≤ 1 ∧ (stepN (2 * j + 2)
      (stepN 2 (ClockAlgorithm.init 1 ["1"]))).currentState = .FAULT_REPLACE) := by
  have h := c3_termination_and_scan_bound 1 ["1"] (stepN 2 (ClockAlgorithm.init 1 ["1"]))
    (by decide) (by decide) ⟨2, rfl⟩
  exact ⟨h.1, h.2 (by decide)⟩

/-- C4: a `step()` in micro-state `CHECK_HIT` with the current page resident at
frame `i` increments `pageHits` by exactly 1, leaves `pageFaults` unchanged,
sets `useBits[i] = 1`, moves to micro-state `HIT`, highlights frame `i` in
green, reports category `hit`, and leaves frames, pointer and `refIndex`
unchanged. -/
theorem c4_hit_postconditions (N : Nat) (refs : List String) (s : ClockAlgorithm)
    (i : Nat) (p : String) (hN : 1 ≤ N) (hs : Reachable N refs s)
    (hstate : s.currentState = .CHECK_HIT)
    (hres : s.frames[i]? = some (some p)) (hpage : s.currentPage = some p) :
    s.step.pageHits = s.pageHits + 1 ∧
    s.step.pageFaults = s.pageFaults ∧
    s.step.useBits[i]? = some 1 ∧
    s.step.currentState = .HIT ∧
    s.step.highlightFrame = some i ∧
    s.step.highlightColor = some "green" ∧
    s.step.logType = "hit" ∧
    s.step.frames = s.frames ∧
    s.step.pointer = s.pointer ∧
    s.step.refIndex = s.refIndex := by
  have hInv := reach_clockInv hN hs
  have hfound : listIndexOf s.currentPage s.frames = some i := by
    rw [hpage]
    apply listIndexOf_eq_of_min
    · exact hres
    · intro j hj hcontra
      exact hInv.nodup j i p (Nat.ne_of_lt hj) hcontra hres
  have hilen : i < s.frames.length := by
    rcases List.getElem?_eq_some_iff.mp hres with ⟨hh, _⟩
    exact hh
  have hblen : i < s.useBits.length := by
    rw [hInv.bits_len, ← hInv.frames_len]
    exact hilen
  rw [step_eq_CHECK_HIT_found hstate hfound]
  exact ⟨rfl, rfl, List.getElem?_set_self hblen, rfl, rfl, rfl, rfl, rfl, rfl, rfl⟩

/-- C4 witness: the second reference of `5 5 5` on a single frame. -/
theorem c4_hit_postconditions_witness :
    wCheckHit.step.pageHits = wCheckHit.pageHits + 1 ∧
    wCheckHit.step.pageFaults = wCheckHit.pageFaults ∧
    wCheckHit.step.useBits[0]? = some 1 ∧
    wCheckHit.step.currentState = .HIT ∧
    wCheckHit.step.highlightFrame = some 0 ∧
    wCheckHit.step.highlightColor = some "green" ∧
    wCheckHit.step.logType = "hit" ∧
    wCheckHit.step.frames = wCheckHit.frames ∧
    wCheckHit.step.pointer = wCheckHit.pointer ∧
    wCheckHit.step.refIndex = wCheckHit.refIndex :=
  c4_hit_postconditions 1 ["5", "5", "5"] wCheckHit 0 "5" (by decide) ⟨6, rfl⟩
    (by decide) (by decide) (by decide)

/-- C5: in every reachable state no page identifier occupies two distinct frame
slots at once. -/
theorem c5_no_duplicate_residency (N : Nat) (refs : List String)
    (s : ClockAlgorithm) (hN : 1 ≤ N) (hs : Reachable N refs s) :
    ∀ i j : Nat, ∀ p : String, i ≠ j → s.frames[i]? = some (some p) →
      s.frames[j]? ≠ some (some p) :=
  (reach_clockInv hN hs).nodup

/-- C5 witness: in scenario C after 10 calls, page 1 sits in frame 0 and hence
not in frame 1. -/
theorem c5_no_duplicate_residency_witness :
    (stepN 10 initC).frames[1]? ≠ some (some "1") :=
  c5_no_duplicate_residency 2 ["1", "2", "1", "2"] (stepN 10 initC) (by decide)
    ⟨10, rfl⟩ 0 1 "1" (by decide) (by decide)

/-- C6: `step()` in micro-state `DONE` only re-emits the completion message
(message and category), changes no other field, and is idempotent; undoing
with an empty history stack changes nothing. -/
theorem c6_post_completion_noop (s a : ClockAlgorithm) (h : s.currentState = .DONE) :
    s.step.frames = s.frames ∧ s.step.useBits = s.useBits ∧
    s.step.pointer = s.pointer ∧ s.step.refIndex = s.refIndex ∧
    s.step.currentPage = s.currentPage ∧ s.step.pageHits = s.pageHits ∧
    s.step.pageFaults = s.pageFaults ∧ s.step.currentState = s.currentState ∧
    s.step.highlightFrame = s.highlightFrame ∧ s.step.highlightColor = s.highlightColor ∧
    s.step.logMessage = "Simulation complete." ∧ s.step.logType = "info" ∧
    s.step.step = s.step ∧
    doBackStep (a, []) = (a, []) := by
  have h1 := step_eq_DONE h
  have h2 : s.step.currentState = .DONE := by rw [h1]; exact h
  have h3 := step_eq_DONE h2
  rw [h3, h1]
  exact ⟨rfl, rfl, rfl, rfl, rfl, rfl, rfl, rfl, rfl, rfl, rfl, rfl, rfl, rfl⟩

/-- C6 witness: the completed scenario C run. -/
theorem c6_post_completion_noop_witness :
    wDoneState.step.frames = wDoneState.frames ∧
    wDoneState.step.useBits = wDoneState.useBits ∧
    wDoneState.step.pointer = wDoneState.pointer ∧
    wDoneState.step.refIndex = wDoneState.refIndex ∧
    wDoneState.step.currentPage = wDoneState.currentPage ∧
    wDoneState.step.pageHits = wDoneState.pageHits ∧
    wDoneState.step.pageFaults = wDoneState.pageFaults ∧
    wDoneState.step.currentState = wDoneState.currentState ∧
    wDoneState.step.highlightFrame = wDoneState.highlightFrame ∧
    wDoneState.step.highlightColor = wDoneState.highlightColor ∧
    wDoneState.step.logMessage = "Simulation complete." ∧
    wDoneState.step.logType = "info" ∧
    wDoneState.step.step = wDoneState.step ∧
    doBackStep (wDoneState, []) = (wDoneState, []) :=
  c6_post_completion_noop wDoneState wDoneState (by decide)

/-- C7: in every reachable state an empty frame slot has use bit 0, and a
`FAULT_CHECK_BIT` step with the pointer on an empty slot goes straight to
`FAULT_REPLACE` (never through `FAULT_SET_BIT_ZERO`). -/
theorem c7_empty_slot_bit_zero (N : Nat) (refs : List String) (s : ClockAlgorithm)
    (hN : 1 ≤ N) (hs : Reachable N refs s) :
    (∀ i : Nat, s.frames[i]? = some none → s.useBits[i]? = some 0) ∧
    (s.currentState = .FAULT_CHECK_BIT → s.frames[s.pointer]? = some none →
      s.step.currentState = .FAULT_REPLACE) := by
  have hInv := reach_clockInv hN hs
  refine ⟨hInv.empty_bit, ?_⟩
  intro hcs hptr
  have hb := hInv.empty_bit s.pointer hptr
  rw [step_eq_FCB hcs]
  simp [hb]

/-- C7 witness: two frames, one reference; the scan starts on empty frame 0. -/
theorem c7_empty_slot_bit_zero_witness :
    wScanState.useBits[0]? = some 0 ∧
    wScanState.step.currentState = .FAULT_REPLACE := by
  have h := c7_empty_slot_bit_zero 2 ["1"] wScanState (by decide) ⟨3, rfl⟩
  exact ⟨h.1 0 (by decide), h.2 (by decide) (by decide)⟩

/-- C8: in every reachable state the pointer is a valid frame index, and one
`step()` either leaves the pointer unchanged or advances it exactly to
`(pointer + 1) % numFrames`. -/
theorem c8_pointer_invariant (N : Nat) (refs : List String) (s : ClockAlgorithm)
    (hN : 1 ≤ N) (hs : Reachable N refs s) :
    s.pointer < s.numFrames ∧
    (s.step.pointer = s.pointer ∨ s.step.pointer = (s.pointer + 1) % s.numFrames) :=
  ⟨(reach_clockInv hN hs).ptr_lt, step_pointer_or s⟩

/-- C8 witness: a fresh two-frame machine. -/
theorem c8_pointer_invariant_witness :
    (ClockAlgorithm.init 2 ["1"]).pointer < (ClockAlgorithm.init 2 ["1"]).numFrames ∧
    ((ClockAlgorithm.init 2 ["1"]).step.pointer = (ClockAlgorithm.init 2 ["1"]).pointer ∨
      (ClockAlgorithm.init 2 ["1"]).step.pointer =
        ((ClockAlgorithm.init 2 ["1"]).pointer + 1) % (ClockAlgorithm.init 2 ["1"]).numFrames) :=
  c8_pointer_invariant 2 ["1"] (ClockAlgorithm.init 2 ["1"]) (by decide) ⟨0, rfl⟩

/-- C9: scenario C (`numFrames = 2`, refs 1 2 1 2) ends (first `DONE` at the
17th call) with 2 hits and 2 faults, both pages still resident without any
eviction, and the pointer only ever moves during the two initial fills
(calls 5 and 10), never during the two hits. -/
theorem c9_scenarioC :
    (stepN 17 initC).currentState = .DONE ∧
    (stepN 16 initC).currentState ≠ .DONE ∧
    (stepN 17 initC).pageHits = 2 ∧
    (stepN 17 initC).pageFaults = 2 ∧
    (stepN 17 initC).frames = [some "1", some "2"] ∧
    (stepN 17 initC).pointer = 0 ∧
    (∀ k : Nat, k < 18 →
      (stepN k initC).pointer = if k < 5 then 0 else if k < 10 then 1 else 0) := by
  decide

/-- C9 witness: the hit counter at completion and the pointer after the second
hit (call 12), where it has returned to 0 and stays. -/
theorem c9_scenarioC_witness :
    (stepN 17 initC).pageHits = 2 ∧ (stepN 12 initC).pointer = 0 := by
  refine ⟨c9_scenarioC.2.2.1, ?_⟩
  have h := c9_scenarioC.2.2.2.2.2.2 12 (by decide)
  simpa using h

/-- C10: a `step()` in the `HIT` pause state only increments `refIndex` and
returns to `START`; every other field — frames, use bits, pointer, current
page, counters, message, category, highlight — is left unchanged. -/
theorem c10_hit_pause_frame (s : ClockAlgorithm) (h : s.currentState = .HIT) :
    s.step.refIndex = s.refIndex + 1 ∧ s.step.currentState = .START ∧
    s.step.frames = s.frames ∧ s.step.useBits = s.useBits ∧
    s.step.pointer = s.pointer ∧ s.step.currentPage = s.currentPage ∧
    s.step.pageHits = s.pageHits ∧ s.step.pageFaults = s.pageFaults ∧
    s.step.logMessage = s.logMessage ∧ s.step.logType = s.logType ∧
    s.step.highlightFrame = s.highlightFrame ∧
    s.step.highlightColor = s.highlightColor := by
  rw [step_eq_HIT h]
  exact ⟨rfl, rfl, rfl, rfl, rfl, rfl, rfl, rfl, rfl, rfl, rfl, rfl⟩

/-- C10 witness: the `HIT` state of the one-frame `5 5 5` run. -/
theorem c10_hit_pause_frame_witness :
    wHitState.step.refIndex = wHitState.refIndex + 1 ∧
    wHitState.step.currentState = .START ∧
    wHitState.step.frames = wHitState.frames ∧
    wHitState.step.useBits = wHitState.useBits ∧
    wHitState.step.pointer = wHitState.pointer ∧
    wHitState.step.currentPage = wHitState.currentPage ∧
    wHitState.step.pageHits = wHitState.pageHits ∧
    wHitState.step.pageFaults = wHitState.pageFaults ∧
    wHitState.step.logMessage = wHitState.logMessage ∧
    wHitState.step.logType = wHitState.logType ∧
    wHitState.step.highlightFrame = wHitState.highlightFrame ∧
    wHitState.step.highlightColor = wHitState.highlightColor :=
  c10_hit_pause_frame wHitState (by decide)
